import Mathlib

/-!
Verification development for the iot device-registry service.

The definitions below shallowly embed the storage backend
(iot/db/sqlalchemy/api.py), the SQLAlchemy model (iot/db/sqlalchemy/models.py),
the domain-object layer (iot/objects/device.py), the controller exception
wrapper (iot/common/exception.py) and the typed query filter
(iot/api/controllers/v1/base.py).  Helpers that live outside the provided
sources (iot/common/utils.py, iot/objects/base.py, oslo.db pagination,
oslo.utils string helpers) are modelled from the specification and marked as
such in their doc comments.
-/

namespace IotSpec

/-! ## Identifier shape helpers

`iot.common.utils.is_int_like` / `is_uuid_like` / `generate_uuid` are not in
the provided sources; they are modelled from the specification. -/

/-- Modelled from the spec: `utils.is_int_like` — an identifier is
integer-shaped when it is a nonempty string of decimal digits
(spec: an "integer-like string", e.g. `"42"`). -/
def isIntLike (s : String) : Bool :=
  !s.data.isEmpty && s.data.all Char.isDigit

/-- Hexadecimal digit test (`0-9`, `a-f`, `A-F`). -/
def isHexChar (c : Char) : Bool :=
  c.isDigit || (('a' ≤ c && c ≤ 'f') || ('A' ≤ c && c ≤ 'F'))

/-- Consume exactly `n` hexadecimal digits from the front of a character
list, returning the remainder on success. -/
def dropHexDigits : Nat → List Char → Option (List Char)
  | 0, cs => some cs
  | _ + 1, [] => none
  | n + 1, c :: cs => if isHexChar c then dropHexDigits n cs else none

/-- Consume `n` hexadecimal digits followed by a hyphen. -/
def hexThenDash (n : Nat) (cs : List Char) : Option (List Char) :=
  match dropHexDigits n cs with
  | some ('-' :: t) => some t
  | _ => none

/-- Modelled from the spec: `utils.is_uuid_like` — an identifier is
UUID-shaped when it has the canonical 8-4-4-4-12 hyphenated hexadecimal
form (spec example: `"bd9431c1-8d69-4ad3-803a-8d4a6b89fd36"`). -/
def isUuidLike (s : String) : Bool :=
  match hexThenDash 8 s.data with
  | none => false
  | some r2 =>
    match hexThenDash 4 r2 with
    | none => false
    | some r4 =>
      match hexThenDash 4 r4 with
      | none => false
      | some r6 =>
        match hexThenDash 4 r6 with
        | none => false
        | some r8 =>
          match dropHexDigits 12 r8 with
          | some [] => true
          | _ => false

instance {ε α : Type} [DecidableEq ε] [DecidableEq α] :
    DecidableEq (Except ε α) := fun x y =>
  match x, y with
  | .ok a, .ok b =>
    if h : a = b then .isTrue (by rw [h])
    else .isFalse (by intro hh; cases hh; exact h rfl)
  | .error a, .error b =>
    if h : a = b then .isTrue (by rw [h])
    else .isFalse (by intro hh; cases hh; exact h rfl)
  | .ok _, .error _ => .isFalse (by intro hh; cases hh)
  | .error _, .ok _ => .isFalse (by intro hh; cases hh)

/-- Numeric value of a digit list. -/
def natOfDigits (cs : List Char) : Nat :=
  cs.foldl (fun n c => n * 10 + (c.toNat - 48)) 0

/-- Numeric value of an integer-shaped identifier (the coercion
SQLAlchemy applies when an integer column is filtered by a string). -/
def intOfIdent (s : String) : Int :=
  (natOfDigits s.data : Int)


/-! ## The storage row (iot/db/sqlalchemy/models.py, class Device)

The `device` table has columns `id` (integer primary key), `project_id`,
`user_id`, `uuid` (unique), `name`, `desc`; the string columns are nullable,
modelled as `Option String`. -/

/-- A persisted row of the `device` table (models.Device). -/
structure Row where
  id : Int
  project_id : Option String
  user_id : Option String
  uuid : Option String
  name : Option String
  desc : Option String
deriving DecidableEq, Repr

/-- A column of the `device` table, usable as a sort key. -/
inductive Col
  | cid
  | cprojectId
  | cuserId
  | cuuid
  | cname
  | cdesc
deriving DecidableEq, Repr

/-- A column value, as compared by the database when ordering: the integer
primary key or a nullable string (SQL `NULL` sorts before any string, as in
SQLite, the default backend). -/
inductive ColVal
  | vInt : Int → ColVal
  | vStr : Option String → ColVal
deriving DecidableEq, Repr

/-- Value of a column in a row. -/
def colVal : Col → Row → ColVal
  | .cid, r => .vInt r.id
  | .cprojectId, r => .vStr r.project_id
  | .cuserId, r => .vStr r.user_id
  | .cuuid, r => .vStr r.uuid
  | .cname, r => .vStr r.name
  | .cdesc, r => .vStr r.desc

/-- Lexicographic strict comparison of character lists (the byte-wise
string collation of the database). -/
def strLtChars : List Char → List Char → Bool
  | [], [] => false
  | [], _ :: _ => true
  | _ :: _, [] => false
  | a :: as, b :: bs => if a = b then strLtChars as bs else decide (a < b)

/-- Strict comparison on nullable strings: `NULL` first, then string order. -/
def optStrLt : Option String → Option String → Bool
  | none, none => false
  | none, some _ => true
  | some _, none => false
  | some a, some b => strLtChars a.data b.data

/-- Strict comparison on column values.  Values of one column always have the
same constructor; the cross cases are fixed arbitrarily to keep the order
total. -/
def cvLt : ColVal → ColVal → Bool
  | .vInt a, .vInt b => decide (a < b)
  | .vInt _, .vStr _ => true
  | .vStr _, .vInt _ => false
  | .vStr a, .vStr b => optStrLt a b

/-- Lexicographic strict comparison of key vectors: the first differing
column decides (the multi-column `ORDER BY` comparison). -/
def lexLt : List ColVal → List ColVal → Bool
  | [], [] => false
  | [], _ :: _ => true
  | _ :: _, [] => false
  | a :: as, b :: bs => if a = b then lexLt as bs else cvLt a b


/-! ## Pagination (iot/db/sqlalchemy/api.py `_paginate_query` and the
oslo.db keyset pagination it delegates to) -/

/-- Sort direction (`asc` / `desc`). -/
inductive Dir
  | asc
  | desc
deriving DecidableEq, Repr

/-- Sort-key list built by `_paginate_query`:
`sort_keys = ['id']; if sort_key and sort_key not in sort_keys:
sort_keys.insert(0, sort_key)` — so the unique primary key is always the
final tie-breaker. -/
def paginateSortKeys : Option Col → List Col
  | none => [Col.cid]
  | some k => if k = Col.cid then [Col.cid] else [k, Col.cid]

/-- The vector of sort-key values of a row. -/
def keyVec (ks : List Col) (r : Row) : List ColVal :=
  ks.map (fun c => colVal c r)

/-- Row `r` sorts strictly before row `s` under sort keys `ks` and
direction `dir` (all keys share the one direction, as in
`_paginate_query`). -/
def rowLt (ks : List Col) (dir : Dir) (r s : Row) : Bool :=
  match dir with
  | .asc => lexLt (keyVec ks r) (keyVec ks s)
  | .desc => lexLt (keyVec ks s) (keyVec ks r)

/-- Total preorder used for ordering the result set. -/
def rowLeB (ks : List Col) (dir : Dir) (r s : Row) : Bool :=
  !rowLt ks dir s r

/-- Modelled from the spec: oslo.db `paginate_query` — order the result set
by the sort keys in the sort direction and, when a `marker` row is given,
keep only the records strictly after the marker in that order, then apply
the limit (spec: "returning records strictly after `marker` in the given
sort order, at most `limit` records").  `sortedRows` is the `ORDER BY`
step; `dbPaginateQuery` adds the marker criterion and the limit. -/
def sortedRows (ks : List Col) (dir : Dir) (rows : List Row) : List Row :=
  List.insertionSort (fun a b => rowLeB ks dir a b = true) rows

def dbPaginateQuery (rows : List Row) (limit : Option Nat) (ks : List Col)
    (marker : Option Row) (sortDir : Option Dir) : List Row :=
  let dir := sortDir.getD Dir.asc
  let sorted := sortedRows ks dir rows
  let afterMarker :=
    match marker with
    | none => sorted
    | some m => sorted.filter (fun r => rowLt ks dir m r)
  match limit with
  | none => afterMarker
  | some n => afterMarker.take n

/-- `_paginate_query(model, limit, marker, sort_key, sort_dir, query)`:
builds the sort-key list and delegates to oslo.db pagination. -/
def paginateQueryRows (rows : List Row) (limit : Option Nat)
    (marker : Option Row) (sortKey : Option Col) (sortDir : Option Dir) :
    List Row :=
  dbPaginateQuery rows limit (paginateSortKeys sortKey) marker sortDir

/-- Structured errors raised by the embedded layers
(iot/common/exception.py classes, plus the backend signals they wrap). -/
inductive Err
  | deviceNotFound (ident : String)
  | deviceAlreadyExists (uuid : String)
  | invalidIdentity (ident : String)
  | invalidParameterValue (msg : String)
  | multipleResultsFound
  | noSuchColumn (col : String)
  | attributeMissing (field : String)
deriving DecidableEq, Repr

/-- Equality filters accepted by `Connection._add_devices_filters`
(keys `name` and `image_id`). -/
structure DevFilters where
  name : Option String
  image_id : Option String
deriving DecidableEq, Repr

/-- `Connection._add_devices_filters`: applies the `name` equality filter;
the `image_id` branch calls `filter_by(image_id=...)` although the
`device` table has no `image_id` column, which SQLAlchemy rejects when the
query is built. -/
def addDevicesFilters (filters : Option DevFilters) (rows : List Row) :
    Except Err (List Row) :=
  match filters with
  | none => .ok rows
  | some f =>
    let rows :=
      match f.name with
      | none => rows
      | some n => rows.filter (fun r => r.name = some n)
    match f.image_id with
    | none => .ok rows
    | some _ => .error (.noSuchColumn "image_id")

/-- `Connection.get_device_list(filters, limit, marker, sort_key,
sort_dir)` evaluated against a store snapshot. -/
def getDeviceList (snapshot : List Row) (filters : Option DevFilters)
    (limit : Option Nat) (marker : Option Row) (sortKey : Option Col)
    (sortDir : Option Dir) : Except Err (List Row) := do
  let rows ← addDevicesFilters filters snapshot
  pure (paginateQueryRows rows limit marker sortKey sortDir)


/-! ## Identity resolution and CRUD (iot/db/sqlalchemy/api.py) -/

/-- The filter chosen by `add_identity_filter`. -/
inductive IdentityFilter
  | byId : Int → IdentityFilter
  | byUuid : String → IdentityFilter
deriving DecidableEq, Repr

/-- `add_identity_filter(query, value)`: filter by `id` for an
integer-shaped value, by `uuid` for a UUID-shaped value, otherwise raise
`InvalidIdentity`. -/
def addIdentityFilter (value : String) : Except Err IdentityFilter :=
  if isIntLike value then .ok (.byId (intOfIdent value))
  else if isUuidLike value then .ok (.byUuid value)
  else .error (.invalidIdentity value)

/-- Whether a row satisfies an identity filter. -/
def matchesFilter : IdentityFilter → Row → Bool
  | .byId i, r => r.id = i
  | .byUuid u, r => r.uuid = some u

/-- `query.one()`: exactly one result, else `NoResultFound` (mapped by the
callers to `DeviceNotFound`) or `MultipleResultsFound`. -/
def queryOne (rows : List Row) (notFound : Err) : Except Err Row :=
  match rows with
  | [] => .error notFound
  | [r] => .ok r
  | _ => .error .multipleResultsFound

/-- `Connection.get_device_by_id`. -/
def getDeviceById (store : List Row) (deviceId : Int) : Except Err Row :=
  queryOne (store.filter (fun r => r.id = deviceId))
    (.deviceNotFound (toString deviceId))

/-- `Connection.get_device_by_uuid`. -/
def getDeviceByUuid (store : List Row) (deviceUuid : String) :
    Except Err Row :=
  queryOne (store.filter (fun r => r.uuid = some deviceUuid))
    (.deviceNotFound deviceUuid)

/-! ## Values mappings

The storage calls receive a Python dict of column values.  Its keys are
the declared fields of the domain object (`iot/objects/device.py`):
`id`, `uuid`, `name`, `project_id`, `user_id`, `image_id`. -/

/-- A declared field of the `Device` domain object. -/
inductive ObjField
  | fid
  | fuuid
  | fname
  | fprojectId
  | fuserId
  | fimageId
deriving DecidableEq, Repr

/-- The declared field set, in declaration order (`Device.fields`). -/
def objFields : List ObjField :=
  [.fid, .fuuid, .fname, .fprojectId, .fuserId, .fimageId]

/-- A field value: the integer `id` or a nullable string
(`obj_utils.str_or_none`). -/
inductive FieldVal
  | fInt : Int → FieldVal
  | fStr : Option String → FieldVal
deriving DecidableEq, Repr

/-- A values mapping: an association list standing for the Python dict
(key present at most once). -/
abbrev Values : Type := List (ObjField × FieldVal)

/-- Key-presence test (`'uuid' in values`). -/
def hasKey (vs : Values) (f : ObjField) : Bool :=
  (vs.map Prod.fst).contains f

/-- Dict lookup (`values.get(k)` returning `None` when absent). -/
def getKey (vs : Values) (f : ObjField) : Option FieldVal :=
  List.lookup f vs

/-- Dict assignment (`values[k] = v`). -/
def setKey (vs : Values) (f : ObjField) (v : FieldVal) : Values :=
  (f, v) :: vs.filter (fun kv => kv.fst ≠ f)

/-- Python truthiness of a dict lookup (`not values.get('uuid')`): absent
keys, `None`, the empty string and the integer `0` are falsy. -/
def pyFalsy : Option FieldVal → Bool
  | none => true
  | some (.fInt i) => i = 0
  | some (.fStr none) => true
  | some (.fStr (some s)) => s = ""

/-- Setting one column of a row (`setattr` performed by
`device.update(values)` / `ref.update(values)`).  A value of the wrong
type for the column, or the `image_id` key — for which the `device` table
has no column — only produces a transient attribute and persists
nothing. -/
def colSet (r : Row) (kv : ObjField × FieldVal) : Row :=
  match kv with
  | (.fid, .fInt i) => { r with id := i }
  | (.fuuid, .fStr s) => { r with uuid := s }
  | (.fname, .fStr s) => { r with name := s }
  | (.fprojectId, .fStr s) => { r with project_id := s }
  | (.fuserId, .fStr s) => { r with user_id := s }
  | _ => r

/-- Apply a values mapping to a row column by column. -/
def applyValues (r : Row) (vs : Values) : Row :=
  vs.foldl colSet r

/-- The fresh row built by `models.Device()` before `update(values)`:
the engine assigns the integer primary key (`newId`), every other column
starts out NULL. -/
def defaultRow (newId : Int) : Row :=
  { id := newId, project_id := none, user_id := none, uuid := none,
    name := none, desc := none }

/-- The string carried by the `uuid` entry of a values mapping, as used in
the `DeviceAlreadyExists(uuid=values['uuid'])` message. -/
def uuidStringOf : Option FieldVal → String
  | some (.fStr (some s)) => s
  | _ => ""

/-- `Connection.create_device(values)`: generate a uuid when the mapping
has no (truthy) one, insert the row, and translate the backend
duplicate-key signal on the unique `uuid` column into
`DeviceAlreadyExists`.  `generatedUuid` stands for the value produced by
`utils.generate_uuid()` (modelled from the spec: fresh UUID generation is
not part of the provided sources) and `newId` for the primary key the
engine assigns.  On success the new store and the stored row are
returned; on failure the transaction leaves the store unchanged. -/
def createDevice (store : List Row) (values : Values)
    (generatedUuid : String) (newId : Int) :
    Except Err (List Row × Row) :=
  let values :=
    if pyFalsy (getKey values .fuuid) then
      setKey values .fuuid (.fStr (some generatedUuid))
    else values
  let row := applyValues (defaultRow newId) values
  match row.uuid with
  | some u =>
    if store.any (fun r => r.uuid = some u) then
      .error (.deviceAlreadyExists (uuidStringOf (getKey values .fuuid)))
    else .ok (store ++ [row], row)
  | none => .ok (store ++ [row], row)

/-- `Connection.destroy_device(device_id)`: delete the rows matched by the
identity filter; raise `DeviceNotFound` (rolling the transaction back)
unless exactly one row was deleted. -/
def destroyDevice (store : List Row) (deviceId : String) :
    Except Err (List Row) := do
  let filt ← addIdentityFilter deviceId
  let count := (store.filter (fun r => matchesFilter filt r)).length
  if count = 1 then
    .ok (store.filter (fun r => !matchesFilter filt r))
  else
    .error (.deviceNotFound deviceId)

/-- `Connection.update_device(device_id, values)`: reject any attempt to
write `uuid`, then perform the locked lookup-and-update in one
transaction (`_do_update_device`). -/
def updateDevice (store : List Row) (deviceId : String) (values : Values) :
    Except Err (List Row × Row) :=
  if hasKey values .fuuid then
    .error (.invalidParameterValue "Cannot overwrite UUID for an existing Device.")
  else
    doUpdateDevice store deviceId values
where
  /-- `Connection._do_update_device`: look the row up under a row lock
  (`NoResultFound` becomes `DeviceNotFound`), apply the values column by
  column, commit.  (The `provision_state` branch of the source targets
  columns the `device` table does not have and no caller passes such a
  key; a values mapping cannot name it.) -/
  doUpdateDevice (store : List Row) (deviceId : String) (values : Values) :
      Except Err (List Row × Row) := do
    let filt ← addIdentityFilter deviceId
    let ref ← queryOne (store.filter (fun r => matchesFilter filt r))
      (.deviceNotFound deviceId)
    .ok (store.map (fun r => if matchesFilter filt r then applyValues r values else r),
      applyValues ref values)

/-! ## Domain-object layer (iot/objects/device.py)

The base class `iot/objects/base.py` is not among the provided sources;
its dirty-field tracking is modelled from the specification. -/

/-- Modelled from the spec: a `Device` domain object — a typed wrapper
holding the values of its declared fields plus the set of fields changed
since the last load or save (the "changed fields" tracking of the object
base). -/
structure DeviceObj where
  vals : List (ObjField × FieldVal)
  changed : List ObjField
deriving DecidableEq, Repr

/-- Modelled from the spec: a freshly instantiated object (`cls(context)`)
has no field set and an empty change-set. -/
def emptyObj : DeviceObj := ⟨[], []⟩

/-- Modelled from the spec: setting a declared field (`device[field] = v`)
stores the value and records the field in the change-set. -/
def objSet (obj : DeviceObj) (f : ObjField) (v : FieldVal) : DeviceObj :=
  { vals := setKey obj.vals f v
    changed := if obj.changed.contains f then obj.changed else obj.changed ++ [f] }

/-- Modelled from the spec: `obj_get_changes()` — the mapping of each
changed field to its current value. -/
def objGetChanges (obj : DeviceObj) : Values :=
  obj.changed.filterMap (fun f => (getKey obj.vals f).map (fun v => (f, v)))

/-- Modelled from the spec: `obj_reset_changes()` — clear the change-set,
keeping the field values. -/
def objResetChanges (obj : DeviceObj) : DeviceObj :=
  { obj with changed := [] }

/-- Python name of a declared field. -/
def fieldName : ObjField → String
  | .fid => "id"
  | .fuuid => "uuid"
  | .fname => "name"
  | .fprojectId => "project_id"
  | .fuserId => "user_id"
  | .fimageId => "image_id"

/-- Reading a declared object field from a storage row
(`db_device[field]`, i.e. `getattr`): the `device` table has columns for
`id`, `uuid`, `name`, `project_id` and `user_id`, but none for
`image_id`, where the attribute access fails. -/
def rowGetField (r : Row) : ObjField → Option FieldVal
  | .fid => some (.fInt r.id)
  | .fuuid => some (.fStr r.uuid)
  | .fname => some (.fStr r.name)
  | .fprojectId => some (.fStr r.project_id)
  | .fuserId => some (.fStr r.user_id)
  | .fimageId => none

/-- `Device._from_db_object(device, db_device)`: copy every declared field
from the row, then reset the change-set; a missing row attribute raises
`AttributeError`. -/
def fromDbObject (db : Row) : Except Err DeviceObj := do
  let obj ← objFields.foldlM (fun obj f =>
    match rowGetField db f with
    | some v => .ok (objSet obj f v)
    | none => .error (.attributeMissing (fieldName f))) emptyObj
  .ok (objResetChanges obj)

/-- `Device.get_by_id`: fetch by integer id and wrap the row. -/
def deviceObjGetById (store : List Row) (deviceId : Int) :
    Except Err DeviceObj :=
  (getDeviceById store deviceId).bind fromDbObject

/-- `Device.get_by_uuid`: fetch by uuid and wrap the row. -/
def deviceObjGetByUuid (store : List Row) (uuid : String) :
    Except Err DeviceObj :=
  (getDeviceByUuid store uuid).bind fromDbObject

/-- `Device.get(context, device_id)`: dispatch on the identifier shape. -/
def deviceObjGet (store : List Row) (deviceId : String) :
    Except Err DeviceObj :=
  if isIntLike deviceId then deviceObjGetById store (intOfIdent deviceId)
  else if isUuidLike deviceId then deviceObjGetByUuid store deviceId
  else .error (.invalidIdentity deviceId)

/-- `self.uuid` on a domain object (raises when the field is not set). -/
def objUuid (obj : DeviceObj) : Except Err String :=
  match getKey obj.vals .fuuid with
  | some (.fStr (some u)) => .ok u
  | _ => .error (.attributeMissing "uuid")

/-- `Device.save(context)`: push `obj_get_changes()` through
`update_device` keyed on `self.uuid`, then clear the change-set. -/
def deviceSave (obj : DeviceObj) (store : List Row) :
    Except Err (List Row × DeviceObj) := do
  let u ← objUuid obj
  let updates := objGetChanges obj
  let (store2, _) ← updateDevice store u updates
  .ok (store2, objResetChanges obj)

/-! ## Controller exception wrapping (iot/common/exception.py) -/

/-- An exception escaping a wrapped controller method: an `IoTException`
(carrying its class `code` and formatted message) or any other Python
exception. -/
inductive Exc
  | iot (code : Nat) (msg : String)
  | other (msg : String)
deriving DecidableEq, Repr

/-- The HTTP error code chosen by `wrap_controller_exception`:
`excp.code` for an `IoTException`, 500 otherwise. -/
def excHttpCode : Exc → Nat
  | .iot c _ => c
  | .other _ => 500

/-- `str(excp)`. -/
def excMessage : Exc → String
  | .iot _ m => m
  | .other m => m

/-- `OBFUSCATED_MSG % log_correlation_id`. -/
def obfuscatedMsg (corrId : String) : String :=
  "Your request could not be handled because of a problem in the server. Error Correlation id is: "
    ++ corrId

/-- The `wsme.exc.ClientSideError` surfaced to the client: its text and
HTTP status code. -/
structure ClientSideFault where
  text : String
  status : Nat
deriving DecidableEq, Repr

/-- `wrap_wsme_controller_exception` (built on
`wrap_controller_exception`): a successful call passes through; an
exception with code below 500 becomes a client fault carrying the
original message; a code of 500 or more (any non-IoT exception included)
becomes a client fault carrying only the obfuscated message with the
generated correlation id (`corrId` stands for `str(uuid.uuid4())`). -/
def wrapWsmeController {α : Type} (result : Except Exc α) (corrId : String) :
    Except ClientSideFault α :=
  match result with
  | .ok a => .ok a
  | .error excp =>
    let code := excHttpCode excp
    if 500 ≤ code then .error ⟨obfuscatedMsg corrId, code⟩
    else .error ⟨excMessage excp, code⟩

/-! ## Typed query filters (iot/api/controllers/v1/base.py, class Query)

The individual converters (`int`, `float`, `strutils.bool_from_string`,
`six.text_type`, `timeutils.parse_isotime`) are external library
functions; they are modelled from the specification as partial parsers of
the wire string. -/

/-- A converted query value (floats and datetimes are kept as their
validated literals; their numeric/calendar semantics play no role here). -/
inductive PyVal
  | pInt : Int → PyVal
  | pFloat : String → PyVal
  | pBool : Bool → PyVal
  | pStr : String → PyVal
  | pDateTime : String → PyVal
deriving DecidableEq, Repr

/-- Leading and trailing whitespace removed. -/
def trimChars (cs : List Char) : List Char :=
  ((cs.dropWhile Char.isWhitespace).reverse.dropWhile
    Char.isWhitespace).reverse

/-- ASCII lower-casing of one character. -/
def lowerChar (c : Char) : Char :=
  if 'A' ≤ c && c ≤ 'Z' then Char.ofNat (c.toNat + 32) else c

/-- Modelled from the spec: the `integer` converter (Python `int(.)`) —
optional sign and a nonempty digit string, surrounding whitespace
ignored. -/
def parsePyInt (s : String) : Option Int :=
  match trimChars s.data with
  | '-' :: rest =>
    if !rest.isEmpty && rest.all Char.isDigit
    then some (-(natOfDigits rest : Int)) else none
  | '+' :: rest =>
    if !rest.isEmpty && rest.all Char.isDigit
    then some ((natOfDigits rest : Int)) else none
  | cs =>
    if !cs.isEmpty && cs.all Char.isDigit
    then some ((natOfDigits cs : Int)) else none

/-- Digits with at most one decimal point and at least one digit. -/
def floatDigitsShape (cs : List Char) : Bool :=
  cs.all (fun c => c.isDigit || c = '.') &&
    (cs.filter (fun c => c = '.')).length ≤ 1 &&
    cs.any Char.isDigit

/-- Modelled from the spec: the `float` converter (Python `float(.)`) —
the validated decimal literal. -/
def parsePyFloat (s : String) : Option String :=
  let t := String.mk (trimChars s.data)
  match trimChars s.data with
  | '-' :: rest => if floatDigitsShape rest then some t else none
  | '+' :: rest => if floatDigitsShape rest then some t else none
  | cs => if floatDigitsShape cs then some t else none

def trueStrings : List String := ["1", "t", "true", "on", "y", "yes"]

def falseStrings : List String := ["0", "f", "false", "off", "n", "no"]

/-- Modelled from the spec: the `boolean` converter
(`strutils.bool_from_string(., strict=True)`) — recognised true/false
words, case-insensitively; anything else is a conversion error. -/
def boolFromStringStrict (s : String) : Option Bool :=
  let l := String.mk ((trimChars s.data).map lowerChar)
  if trueStrings.contains l then some true
  else if falseStrings.contains l then some false
  else none

/-- `YYYY-MM-DDTHH:MM:SS` prefix shape of an ISO-8601 timestamp. -/
def isIsoShape : List Char → Bool
  | y1 :: y2 :: y3 :: y4 :: '-' :: m1 :: m2 :: '-' :: d1 :: d2 :: 'T' ::
      h1 :: h2 :: ':' :: n1 :: n2 :: ':' :: s1 :: s2 :: _ =>
    [y1, y2, y3, y4, m1, m2, d1, d2, h1, h2, n1, n2, s1, s2].all Char.isDigit
  | _ => false

/-- Modelled from the spec: the `datetime` converter
(`timeutils.parse_isotime`) — the validated ISO-8601 literal. -/
def parseIsoTime (s : String) : Option String :=
  if isIsoShape s.data then some s else none

/-- `Query._supported_types` — note that `datetime` is absent. -/
def supportedTypes : List String := ["integer", "float", "string", "boolean"]

/-- `Query._type_converters`: the registered converter for a type name
(it has a `datetime` entry even though `datetime` is unsupported). -/
def typeConverters (ty : String) : Option (String → Option PyVal) :=
  if ty = "integer" then some (fun v => (parsePyInt v).map PyVal.pInt)
  else if ty = "float" then some (fun v => (parsePyFloat v).map PyVal.pFloat)
  else if ty = "boolean" then
    some (fun v => (boolFromStringStrict v).map PyVal.pBool)
  else if ty = "string" then some (fun v => some (PyVal.pStr v))
  else if ty = "datetime" then
    some (fun v => (parseIsoTime v).map PyVal.pDateTime)
  else none

/-- The exception actually escaping every error arm of
`Query._get_value_as_type`: each arm executes `raise ClientSideError(msg)`,
but `ClientSideError` is neither defined nor imported in
iot/api/controllers/v1/base.py (the module only does `import wsme` and
`from wsme import exc`), so evaluating the bare name raises `NameError` —
the crafted client messages (unable-to-convert, type-not-supported,
unexpected-exception) are built and then discarded with the failed
raise. -/
inductive QueryRaise
  | nameErrorClientSideErrorUndefined
deriving DecidableEq, Repr

/-- `ast.literal_eval` fallback of the untyped branch, approximated for
numeric literals (external standard-library function); on failure the
raw value is kept (`except (ValueError, SyntaxError): pass`). -/
def pyLiteralEval (v : String) : PyVal :=
  match parsePyInt v with
  | some i => .pInt i
  | none =>
    match parsePyFloat v with
    | some f => .pFloat f
    | none => .pStr v

/-- Python `a or b` on optional strings (empty string is falsy). -/
def orStr (a b : Option String) : Option String :=
  match a with
  | some s => if s = "" then b else some s
  | none => b

/-- `Query._get_value_as_type(forced_type)`: take the untyped
`literal_eval` branch for a falsy type; otherwise reject types outside
`_supported_types` (the `except TypeError:` arm), then convert, a failed
conversion landing in the `except ValueError:` arm.  Every error arm
attempts `raise ClientSideError(msg)` and — `ClientSideError` being
undefined in the module — actually raises the one `NameError`. -/
def getValueAsType (value : String) (qtype forcedType : Option String) :
    Except QueryRaise PyVal :=
  match orStr forcedType qtype with
  | none => .ok (pyLiteralEval value)
  | some ty =>
    if ty = "" then .ok (pyLiteralEval value)
    else if supportedTypes.contains ty = false then
      .error .nameErrorClientSideErrorUndefined
    else
      match typeConverters ty with
      | none => .error .nameErrorClientSideErrorUndefined
      | some conv =>
        match conv value with
        | some v => .ok v
        | none => .error .nameErrorClientSideErrorUndefined

/-! ## Helper lemmas -/

theorem dropHexDigits_all_digits {n : Nat} {cs rest : List Char}
    (hall : cs.all Char.isDigit = true)
    (h : dropHexDigits n cs = some rest) : rest.all Char.isDigit = true := by
  induction n generalizing cs with
  | zero =>
    simp only [dropHexDigits, Option.some.injEq] at h
    exact h ▸ hall
  | succ n ih =>
    cases cs with
    | nil => simp [dropHexDigits] at h
    | cons c t =>
      simp only [dropHexDigits] at h
      by_cases hc : isHexChar c
      · simp only [List.all_cons, Bool.and_eq_true] at hall
        exact ih hall.2 (by simpa [hc] using h)
      · simp [hc] at h

theorem hexThenDash_some {n : Nat} {cs r : List Char}
    (h : hexThenDash n cs = some r) :
    dropHexDigits n cs = some ('-' :: r) := by
  unfold hexThenDash at h
  split at h
  · next heq =>
    simp only [Option.some.injEq] at h
    exact h ▸ heq
  · cases h

/-- A digits-only string never has the hyphenated UUID shape, so the two
identity-resolution predicates are mutually exclusive. -/
theorem not_isUuidLike_of_isIntLike {s : String}
    (h : isIntLike s = true) : isUuidLike s = false := by
  have hall : s.data.all Char.isDigit = true := by
    simp only [isIntLike, Bool.and_eq_true] at h
    exact h.2
  cases hu : isUuidLike s with
  | false => rfl
  | true =>
    exfalso
    unfold isUuidLike at hu
    split at hu
    · cases hu
    · next r2 heq =>
      have hdrop := hexThenDash_some heq
      have hr : ('-' :: r2).all Char.isDigit = true :=
        dropHexDigits_all_digits hall hdrop
      simp only [List.all_cons, Bool.and_eq_true] at hr
      exact absurd hr.1 (by decide)

theorem strLtChars_irrefl (x : List Char) : strLtChars x x = false := by
  induction x with
  | nil => rfl
  | cons a as ih => simp [strLtChars, ih]

theorem strLtChars_asymm {x y : List Char}
    (h : strLtChars x y = true) : strLtChars y x = false := by
  induction x generalizing y with
  | nil =>
    cases y with
    | nil => simp [strLtChars] at h
    | cons b bs => simp [strLtChars]
  | cons a as ih =>
    cases y with
    | nil => simp [strLtChars] at h
    | cons b bs =>
      by_cases hab : a = b
      · subst hab
        simp only [strLtChars, if_pos rfl] at h ⊢
        exact ih h
      · simp only [strLtChars, if_neg hab, if_neg (Ne.symm hab),
          decide_eq_true_eq, decide_eq_false_iff_not] at h ⊢
        exact lt_asymm h

theorem strLtChars_trans {x y z : List Char}
    (hxy : strLtChars x y = true) (hyz : strLtChars y z = true) :
    strLtChars x z = true := by
  induction x generalizing y z with
  | nil =>
    cases y with
    | nil => simp [strLtChars] at hxy
    | cons b bs =>
      cases z with
      | nil => simp [strLtChars] at hyz
      | cons c cs => simp [strLtChars]
  | cons a as ih =>
    cases y with
    | nil => simp [strLtChars] at hxy
    | cons b bs =>
      cases z with
      | nil => simp [strLtChars] at hyz
      | cons c cs =>
        by_cases hab : a = b <;> by_cases hbc : b = c
        · subst hab; subst hbc
          simp only [strLtChars, if_pos rfl] at hxy hyz ⊢
          exact ih hxy hyz
        · subst hab
          simp only [strLtChars, if_pos rfl, if_neg hbc] at hxy hyz ⊢
          exact hyz
        · subst hbc
          simp only [strLtChars, if_neg hab] at hxy ⊢
          exact hxy
        · simp only [strLtChars, if_neg hab, if_neg hbc,
            decide_eq_true_eq] at hxy hyz
          have hac : a < c := lt_trans hxy hyz
          have hne : a ≠ c := ne_of_lt hac
          simp only [strLtChars, if_neg hne, decide_eq_true_eq]
          exact hac

theorem strLtChars_conn {x y : List Char}
    (hxy : strLtChars x y = false) (hyx : strLtChars y x = false) :
    x = y := by
  induction x generalizing y with
  | nil =>
    cases y with
    | nil => rfl
    | cons b bs => simp [strLtChars] at hxy
  | cons a as ih =>
    cases y with
    | nil => simp [strLtChars] at hyx
    | cons b bs =>
      by_cases hab : a = b
      · subst hab
        simp only [strLtChars, if_pos rfl] at hxy hyx
        exact congrArg (a :: ·) (ih hxy hyx)
      · simp only [strLtChars, if_neg hab, if_neg (Ne.symm hab),
          decide_eq_false_iff_not] at hxy hyx
        exact absurd (le_antisymm (not_lt.mp hyx) (not_lt.mp hxy)) hab

theorem optStrLt_irrefl (a : Option String) : optStrLt a a = false := by
  cases a <;> simp [optStrLt, strLtChars_irrefl]

theorem optStrLt_asymm {a b : Option String}
    (h : optStrLt a b = true) : optStrLt b a = false := by
  cases a with
  | none =>
    cases b with
    | none => simp [optStrLt] at h
    | some t => simp [optStrLt]
  | some s =>
    cases b with
    | none => simp [optStrLt] at h
    | some t => exact strLtChars_asymm h

theorem optStrLt_trans {a b c : Option String}
    (hab : optStrLt a b = true) (hbc : optStrLt b c = true) :
    optStrLt a c = true := by
  cases a <;> cases b <;> cases c <;> simp_all [optStrLt]
  exact strLtChars_trans hab hbc

theorem optStrLt_conn {a b : Option String}
    (hab : optStrLt a b = false) (hba : optStrLt b a = false) : a = b := by
  cases a with
  | none =>
    cases b with
    | none => rfl
    | some t => simp [optStrLt] at hab
  | some s =>
    cases b with
    | none => simp [optStrLt] at hba
    | some t =>
      have hdata : s.data = t.data := strLtChars_conn hab hba
      exact congrArg some (by cases s; cases t; exact congrArg String.mk hdata)

theorem cvLt_irrefl (a : ColVal) : cvLt a a = false := by
  cases a with
  | vInt i => simp [cvLt]
  | vStr s => simp [cvLt, optStrLt_irrefl]

theorem cvLt_asymm {a b : ColVal}
    (h : cvLt a b = true) : cvLt b a = false := by
  cases a <;> cases b <;> simp_all [cvLt]
  · omega
  · exact optStrLt_asymm h

theorem cvLt_trans {a b c : ColVal}
    (hab : cvLt a b = true) (hbc : cvLt b c = true) : cvLt a c = true := by
  cases a <;> cases b <;> cases c <;> simp_all [cvLt]
  · omega
  · exact optStrLt_trans hab hbc

theorem cvLt_conn {a b : ColVal}
    (hab : cvLt a b = false) (hba : cvLt b a = false) : a = b := by
  cases a <;> cases b <;> simp_all [cvLt]
  · omega
  · exact optStrLt_conn hab hba

/-- `cvLt` linearity: a strict comparison passes through any middle value. -/
theorem cvLt_linear {a c : ColVal} (b : ColVal)
    (hac : cvLt a c = true) : cvLt a b = true ∨ cvLt b c = true := by
  by_cases hab : cvLt a b = true
  · exact Or.inl hab
  · by_cases hba : cvLt b a = true
    · exact Or.inr (cvLt_trans hba hac)
    · have : a = b :=
        cvLt_conn (by cases h : cvLt a b; rfl; exact absurd h hab)
          (by cases h : cvLt b a; rfl; exact absurd h hba)
      exact Or.inr (this ▸ hac)

theorem lexLt_irrefl (x : List ColVal) : lexLt x x = false := by
  induction x with
  | nil => rfl
  | cons a as ih => simp [lexLt, ih]

theorem lexLt_asymm {x y : List ColVal}
    (h : lexLt x y = true) : lexLt y x = false := by
  induction x generalizing y with
  | nil =>
    cases y with
    | nil => simp [lexLt] at h
    | cons b bs => simp [lexLt]
  | cons a as ih =>
    cases y with
    | nil => simp [lexLt] at h
    | cons b bs =>
      by_cases hab : a = b
      · subst hab
        simp only [lexLt, if_pos rfl] at h ⊢
        exact ih h
      · simp only [lexLt, if_neg hab, if_neg (Ne.symm hab)] at h ⊢
        exact cvLt_asymm h

theorem lexLt_not_trans {x y z : List ColVal}
    (hxy : lexLt x y = false) (hyz : lexLt y z = false) :
    lexLt x z = false := by
  induction x generalizing y z with
  | nil =>
    cases y with
    | nil =>
      cases z with
      | nil => rfl
      | cons c cs => simp [lexLt] at hyz
    | cons b bs => simp [lexLt] at hxy
  | cons a as ih =>
    cases z with
    | nil => rfl
    | cons c cs =>
      cases y with
      | nil => simp [lexLt] at hyz
      | cons b bs =>
        by_cases hab : a = b <;> by_cases hbc : b = c
        · subst hab; subst hbc
          simp only [lexLt, if_pos rfl] at hxy hyz ⊢
          exact ih hxy hyz
        · subst hab
          simp only [lexLt, if_pos rfl, if_neg hbc] at hxy hyz ⊢
          exact hyz
        · subst hbc
          simp only [lexLt, if_neg hab] at hxy ⊢
          exact hxy
        · simp only [lexLt, if_neg hab, if_neg hbc] at hxy hyz
          by_cases hac : a = c
          · subst hac
            exact absurd (cvLt_conn hxy hyz) hab
          · simp only [lexLt, if_neg hac]
            cases hl : cvLt a c with
            | false => rfl
            | true =>
              rcases cvLt_linear b hl with h | h
              · exact absurd h (by simp [hxy])
              · exact absurd h (by simp [hyz])

theorem lexLt_conn {x y : List ColVal}
    (hxy : lexLt x y = false) (hyx : lexLt y x = false) : x = y := by
  induction x generalizing y with
  | nil =>
    cases y with
    | nil => rfl
    | cons b bs => simp [lexLt] at hxy
  | cons a as ih =>
    cases y with
    | nil => simp [lexLt] at hyx
    | cons b bs =>
      by_cases hab : a = b
      · subst hab
        simp only [lexLt, if_pos rfl] at hxy hyx
        exact congrArg (a :: ·) (ih hxy hyx)
      · simp only [lexLt, if_neg hab, if_neg (Ne.symm hab)] at hxy hyx
        exact absurd (cvLt_conn hxy hyx) hab

/-! ## Order-theoretic facts about the pagination comparison -/

theorem rowLt_irrefl (ks : List Col) (dir : Dir) (r : Row) :
    rowLt ks dir r r = false := by
  cases dir <;> simp [rowLt, lexLt_irrefl]

theorem rowLt_asymm {ks : List Col} {dir : Dir} {r s : Row}
    (h : rowLt ks dir r s = true) : rowLt ks dir s r = false := by
  cases dir <;> exact lexLt_asymm h

theorem rowLt_not_trans {ks : List Col} {dir : Dir} {a b c : Row}
    (hab : rowLt ks dir a b = false) (hbc : rowLt ks dir b c = false) :
    rowLt ks dir a c = false := by
  cases dir
  · exact lexLt_not_trans hab hbc
  · exact lexLt_not_trans hbc hab

theorem rowLt_conn {ks : List Col} {dir : Dir} {r s : Row}
    (hrs : rowLt ks dir r s = false) (hsr : rowLt ks dir s r = false) :
    keyVec ks r = keyVec ks s := by
  cases dir
  · exact lexLt_conn hrs hsr
  · exact lexLt_conn hsr hrs

theorem keyVec_eq_colVal {ks : List Col} {r s : Row}
    (h : keyVec ks r = keyVec ks s) :
    ∀ c ∈ ks, colVal c r = colVal c s := by
  induction ks with
  | nil => intro c hc; cases hc
  | cons k ks ih =>
    simp only [keyVec, List.map_cons, List.cons.injEq] at h
    intro c hc
    rcases List.mem_cons.mp hc with rfl | hc
    · exact h.1
    · exact ih h.2 c hc

theorem cid_mem_paginateSortKeys (sortKey : Option Col) :
    Col.cid ∈ paginateSortKeys sortKey := by
  cases sortKey with
  | none => simp [paginateSortKeys]
  | some k =>
    by_cases hk : k = Col.cid <;> simp [paginateSortKeys, hk]

/-- Two rows whose key vectors agree have the same primary key, since the
primary key is always among the sort keys. -/
theorem id_eq_of_keyVec_eq {sortKey : Option Col} {r s : Row}
    (h : keyVec (paginateSortKeys sortKey) r = keyVec (paginateSortKeys sortKey) s) :
    r.id = s.id := by
  have := keyVec_eq_colVal h Col.cid (cid_mem_paginateSortKeys sortKey)
  simpa [colVal] using this

theorem rowLeB_total (ks : List Col) (dir : Dir) (a b : Row) :
    rowLeB ks dir a b = true ∨ rowLeB ks dir b a = true := by
  simp only [rowLeB, Bool.not_eq_true']
  cases h : rowLt ks dir b a
  · exact Or.inl rfl
  · exact Or.inr (rowLt_asymm h)

theorem rowLeB_trans {ks : List Col} {dir : Dir} {a b c : Row}
    (hab : rowLeB ks dir a b = true) (hbc : rowLeB ks dir b c = true) :
    rowLeB ks dir a c = true := by
  simp only [rowLeB, Bool.not_eq_true'] at hab hbc ⊢
  exact rowLt_not_trans hbc hab

/-- The sorted result set is a permutation of the input rows. -/
theorem sortedRows_perm (ks : List Col) (dir : Dir) (rows : List Row) :
    (sortedRows ks dir rows).Perm rows :=
  List.perm_insertionSort _ rows

/-- On a snapshot with no duplicate primary keys the sorted result set is
strictly increasing in the pagination order. -/
theorem sortedRows_pairwise_lt (sortKey : Option Col) (dir : Dir)
    (rows : List Row) (hids : (rows.map Row.id).Nodup) :
    (sortedRows (paginateSortKeys sortKey) dir rows).Pairwise
      (fun a b => rowLt (paginateSortKeys sortKey) dir a b = true) := by
  set ks := paginateSortKeys sortKey with hks
  haveI htot : IsTotal Row (fun a b => rowLeB ks dir a b = true) :=
    ⟨fun a b => rowLeB_total ks dir a b⟩
  haveI htr : IsTrans Row (fun a b => rowLeB ks dir a b = true) :=
    ⟨fun _ _ _ h h2 => rowLeB_trans h h2⟩
  have hsorted : (sortedRows ks dir rows).Pairwise
      (fun a b => rowLeB ks dir a b = true) :=
    List.sorted_insertionSort _ rows
  have hnodup_rows : rows.Nodup := hids.of_map
  have hnodup : (sortedRows ks dir rows).Nodup :=
    ((sortedRows_perm ks dir rows).nodup_iff).mpr hnodup_rows
  have hinj : ∀ x ∈ rows, ∀ y ∈ rows, x.id = y.id → x = y :=
    List.inj_on_of_nodup_map hids
  refine (hsorted.and hnodup).imp_of_mem ?_
  intro a b ha hb hab
  obtain ⟨hle, hne⟩ := hab
  simp only [rowLeB, Bool.not_eq_true'] at hle
  cases hlt : rowLt ks dir a b
  · exfalso
    have hkv : keyVec ks a = keyVec ks b := rowLt_conn hlt hle
    have hid : a.id = b.id := id_eq_of_keyVec_eq (hks ▸ hkv)
    have ha' : a ∈ rows := ((sortedRows_perm ks dir rows).mem_iff).mp ha
    have hb' : b ∈ rows := ((sortedRows_perm ks dir rows).mem_iff).mp hb
    exact hne (hinj a ha' b hb' hid)
  · rfl

/-- In a strictly increasing list, the records strictly after the element
at position `i` are exactly the records past position `i`. -/
theorem filter_after_get {lt : Row → Row → Bool}
    (hirr : ∀ a, lt a a = false)
    (hasym : ∀ a b, lt a b = true → lt b a = false) :
    ∀ (l : List Row), l.Pairwise (fun a b => lt a b = true) →
      ∀ i (h : i < l.length),
        l.filter (fun r => lt (l.get ⟨i, h⟩) r) = l.drop (i + 1) := by
  intro l
  induction l with
  | nil => intro _ i h; cases h
  | cons a t ih =>
    intro hp i h
    rcases List.pairwise_cons.mp hp with ⟨hhead, htail⟩
    cases i with
    | zero =>
      simp only [List.get, List.filter, hirr a, List.drop_succ_cons,
        List.drop_zero]
      exact List.filter_eq_self.mpr (fun x hx => hhead x hx)
    | succ i =>
      have hi : i < t.length := Nat.lt_of_succ_lt_succ h
      have hmem : t.get ⟨i, hi⟩ ∈ t := List.get_mem t i hi
      have hfa : lt (t.get ⟨i, hi⟩) a = false :=
        hasym a _ (hhead _ hmem)
      simp only [List.get, List.filter, hfa, List.drop_succ_cons]
      exact ih htail i hi

/-- Requesting the records strictly after the last element of the first
page yields exactly the remainder of the sorted result set. -/
theorem filter_after_take_getLast {lt : Row → Row → Bool}
    (hirr : ∀ a, lt a a = false)
    (hasym : ∀ a b, lt a b = true → lt b a = false)
    {l : List Row} (hp : l.Pairwise (fun a b => lt a b = true))
    {N : Nat} {m : Row} (hm : (l.take N).getLast? = some m) :
    l.filter (fun r => lt m r) = l.drop N := by
  have hlen : (l.take N).length = min N l.length := List.length_take ..
  have hne : l.take N ≠ [] := by
    intro hnil
    rw [hnil] at hm
    cases hm
  have hpos : 0 < min N l.length := by
    rcases Nat.eq_zero_or_pos (min N l.length) with h0 | h
    · exact absurd (List.length_eq_zero.mp (hlen.trans h0)) hne
    · exact h
  set k := min N l.length with hk
  have hk1N : k - 1 < N := by omega
  have hk1l : k - 1 < l.length := by omega
  have hget : l[k - 1]? = some m := by
    have h1 : (l.take N).getLast? = (l.take N)[(l.take N).length - 1]? :=
      List.getLast?_eq_getElem? ..
    rw [h1, hlen] at hm
    rwa [List.getElem?_take, if_pos hk1N] at hm
  have hgetm : l.get ⟨k - 1, hk1l⟩ = m := by
    have := List.getElem?_eq_getElem hk1l
    rw [hget] at this
    simpa [List.get_eq_getElem] using this.symm
  have hfilter := filter_after_get hirr hasym l hp (k - 1) hk1l
  rw [hgetm] at hfilter
  have hkk : k - 1 + 1 = k := by omega
  rw [hkk] at hfilter
  rw [hfilter]
  rcases Nat.le_total N l.length with hle | hge
  · have : k = N := by omega
    rw [this]
  · have hkl : k = l.length := by omega
    rw [hkl, List.drop_length, List.drop_eq_nil_of_le hge]

/-! ## Claim theorems -/

/-- C2: for every identifier string, identity resolution — in the storage
filter helper `add_identity_filter` and in the domain-object `Device.get`
— selects exactly one path: an integer-shaped string resolves via the
`id` column, a UUID-shaped string via the `uuid` column, and every other
shape raises `InvalidIdentity`.  The two shapes are mutually
exclusive. -/
theorem identity_resolution_exclusive (s : String) (store : List Row) :
    (¬(isIntLike s = true ∧ isUuidLike s = true)) ∧
    (isIntLike s = true →
      addIdentityFilter s = .ok (.byId (intOfIdent s)) ∧
      deviceObjGet store s = deviceObjGetById store (intOfIdent s)) ∧
    (isUuidLike s = true →
      addIdentityFilter s = .ok (.byUuid s) ∧
      deviceObjGet store s = deviceObjGetByUuid store s) ∧
    (isIntLike s = false → isUuidLike s = false →
      addIdentityFilter s = .error (.invalidIdentity s) ∧
      deviceObjGet store s = .error (.invalidIdentity s)) := by
  refine ⟨?_, ?_, ?_, ?_⟩
  · rintro ⟨hi, hu⟩
    rw [not_isUuidLike_of_isIntLike hi] at hu
    cases hu
  · intro hi
    exact ⟨by simp [addIdentityFilter, hi], by simp [deviceObjGet, hi]⟩
  · intro hu
    have hi : isIntLike s = false := by
      cases h : isIntLike s
      · rfl
      · rw [not_isUuidLike_of_isIntLike h] at hu
        cases hu
    exact ⟨by simp [addIdentityFilter, hi, hu], by simp [deviceObjGet, hi, hu]⟩
  · intro hi hu
    exact ⟨by simp [addIdentityFilter, hi, hu], by simp [deviceObjGet, hi, hu]⟩

/-- Witness for C2 at the three identifiers from the spec. -/
theorem identity_resolution_exclusive_witness :
    (isIntLike "42" = true ∧ intOfIdent "42" = 42 ∧
      addIdentityFilter "42" = .ok (.byId (intOfIdent "42"))) ∧
    (isUuidLike "bd9431c1-8d69-4ad3-803a-8d4a6b89fd36" = true ∧
      addIdentityFilter "bd9431c1-8d69-4ad3-803a-8d4a6b89fd36" =
        .ok (.byUuid "bd9431c1-8d69-4ad3-803a-8d4a6b89fd36")) ∧
    (isIntLike "not-an-id" = false ∧ isUuidLike "not-an-id" = false ∧
      addIdentityFilter "not-an-id" = .error (.invalidIdentity "not-an-id")) :=
  ⟨⟨by decide, by decide,
    ((identity_resolution_exclusive "42" []).2.1 (by decide)).1⟩,
   ⟨by decide,
    ((identity_resolution_exclusive "bd9431c1-8d69-4ad3-803a-8d4a6b89fd36"
      []).2.2.1 (by decide)).1⟩,
   ⟨by decide, by decide,
    ((identity_resolution_exclusive "not-an-id" []).2.2.2 (by decide)
      (by decide)).1⟩⟩

/-- C10: `update_device` checks the `uuid` key of the values mapping
before any lookup of the target row, so a mapping containing `uuid`
raises `InvalidParameterValue` for every identifier — even a nonexistent
or malformed one — and, the transaction never having started, the store
is untouched (the operation yields no successor store). -/
theorem update_device_uuid_guard_first (store : List Row)
    (deviceId : String) (values : Values)
    (h : hasKey values .fuuid = true) :
    updateDevice store deviceId values =
      .error (.invalidParameterValue
        "Cannot overwrite UUID for an existing Device.") := by
  simp [updateDevice, h]

/-- Witness for C10: the store is empty and the identifier malformed, yet
the reported error is `InvalidParameterValue`, not `DeviceNotFound` nor
`InvalidIdentity`. -/
theorem update_device_uuid_guard_first_witness :
    hasKey [(ObjField.fuuid, FieldVal.fStr (some "new-uuid"))] .fuuid = true ∧
    updateDevice [] "not-an-id"
        [(ObjField.fuuid, FieldVal.fStr (some "new-uuid"))] =
      .error (.invalidParameterValue
        "Cannot overwrite UUID for an existing Device.") :=
  ⟨by decide,
   update_device_uuid_guard_first [] "not-an-id"
     [(ObjField.fuuid, FieldVal.fStr (some "new-uuid"))] (by decide)⟩

/-- C4: a values mapping containing the `uuid` key makes `update_device`
raise `InvalidParameterValue` regardless of the identifier; without that
key, the locked lookup either matches no row — raising `DeviceNotFound` —
or matches the one row, which is updated field by field inside the single
transaction. -/
theorem update_device_semantics (store : List Row) (deviceId : String)
    (values : Values) (filt : IdentityFilter)
    (hfilt : addIdentityFilter deviceId = .ok filt) :
    (hasKey values .fuuid = true →
      updateDevice store deviceId values =
        .error (.invalidParameterValue
          "Cannot overwrite UUID for an existing Device.")) ∧
    (hasKey values .fuuid = false →
      (store.filter (fun r => matchesFilter filt r) = [] →
        updateDevice store deviceId values =
          .error (.deviceNotFound deviceId)) ∧
      (∀ r, store.filter (fun x => matchesFilter filt x) = [r] →
        updateDevice store deviceId values =
          .ok (store.map (fun x =>
              if matchesFilter filt x then applyValues x values else x),
            applyValues r values))) := by
  refine ⟨fun h => by simp [updateDevice, h], fun hnu => ⟨?_, ?_⟩⟩
  · intro hempty
    simp [updateDevice, hnu, updateDevice.doUpdateDevice, hfilt, hempty,
      queryOne, Bind.bind, Except.bind]
  · intro r hone
    simp [updateDevice, hnu, updateDevice.doUpdateDevice, hfilt, hone,
      queryOne, Bind.bind, Except.bind]

/-- Witness for C4: a two-row store; the device with id 7 gets its name
updated in place, and a lookup matching nothing yields
`DeviceNotFound`. -/
theorem update_device_semantics_witness :
    addIdentityFilter "7" = .ok (.byId 7) ∧
    hasKey [(ObjField.fname, FieldVal.fStr (some "edge"))] .fuuid = false ∧
    ([⟨7, none, none, some "aa", some "old", none⟩,
      ⟨9, none, none, some "bb", some "keep", none⟩] :
        List Row).filter (fun x => matchesFilter (.byId 7) x) =
      [⟨7, none, none, some "aa", some "old", none⟩] ∧
    updateDevice
        [⟨7, none, none, some "aa", some "old", none⟩,
         ⟨9, none, none, some "bb", some "keep", none⟩] "7"
        [(ObjField.fname, FieldVal.fStr (some "edge"))] =
      .ok ([⟨7, none, none, some "aa", some "edge", none⟩,
            ⟨9, none, none, some "bb", some "keep", none⟩],
        ⟨7, none, none, some "aa", some "edge", none⟩) := by
  refine ⟨by decide, by decide, by decide, ?_⟩
  have h := (((update_device_semantics
    [⟨7, none, none, some "aa", some "old", none⟩,
     ⟨9, none, none, some "bb", some "keep", none⟩] "7"
    [(ObjField.fname, FieldVal.fStr (some "edge"))] (.byId 7)
    (by decide)).2 (by decide)).2
    ⟨7, none, none, some "aa", some "old", none⟩ (by decide))
  have hrw :
      ([⟨7, none, none, some "aa", some "old", none⟩,
        ⟨9, none, none, some "bb", some "keep", none⟩] : List Row).map
          (fun x => if matchesFilter (.byId 7) x
            then applyValues x [(ObjField.fname, FieldVal.fStr (some "edge"))]
            else x) =
        [⟨7, none, none, some "aa", some "edge", none⟩,
         ⟨9, none, none, some "bb", some "keep", none⟩] := by decide
  have hr2 : applyValues ⟨7, none, none, some "aa", some "old", none⟩
      [(ObjField.fname, FieldVal.fStr (some "edge"))] =
      ⟨7, none, none, some "aa", some "edge", none⟩ := by decide
  rw [h, hrw, hr2]

theorem length_filter_add_length_filter_not (l : List Row)
    (p : Row → Bool) :
    (l.filter p).length + (l.filter (fun x => !p x)).length = l.length := by
  induction l with
  | nil => rfl
  | cons a t ih =>
    cases h : p a <;> simp [List.filter_cons, h, ← ih] <;> omega

/-- C5: `destroy_device` on a store with no matching device raises
`DeviceNotFound` (the transaction rolls back, so no successor store is
produced); on a store whose identity filter matches exactly the one
record, it removes that record and nothing else, after which
`get_device_by_uuid` (resp. `get_device_by_id`) with the same identifier
raises `DeviceNotFound`. -/
theorem destroy_device_semantics (store : List Row) (deviceId : String)
    (filt : IdentityFilter)
    (hfilt : addIdentityFilter deviceId = .ok filt) :
    (store.filter (fun r => matchesFilter filt r) = [] →
      destroyDevice store deviceId = .error (.deviceNotFound deviceId)) ∧
    (∀ r, store.filter (fun x => matchesFilter filt x) = [r] →
      destroyDevice store deviceId =
        .ok (store.filter (fun x => !matchesFilter filt x)) ∧
      (store.filter (fun x => !matchesFilter filt x)).length + 1 =
        store.length ∧
      (∀ x ∈ store, x ≠ r →
        x ∈ store.filter (fun x => !matchesFilter filt x)) ∧
      (∀ u, filt = .byUuid u →
        getDeviceByUuid (store.filter (fun x => !matchesFilter filt x)) u =
          .error (.deviceNotFound u)) ∧
      (∀ i, filt = .byId i →
        getDeviceById (store.filter (fun x => !matchesFilter filt x)) i =
          .error (.deviceNotFound (toString i)))) := by
  constructor
  · intro hempty
    simp [destroyDevice, hfilt, hempty, Bind.bind, Except.bind]
  · intro r hone
    have hmem_one : ∀ x ∈ store, matchesFilter filt x = true → x = r := by
      intro x hx hpx
      have : x ∈ store.filter (fun x => matchesFilter filt x) :=
        List.mem_filter.mpr ⟨hx, hpx⟩
      rw [hone] at this
      simpa using this
    refine ⟨?_, ?_, ?_, ?_, ?_⟩
    · simp [destroyDevice, hfilt, hone, Bind.bind, Except.bind]
    · have := length_filter_add_length_filter_not store
        (fun x => matchesFilter filt x)
      rw [hone] at this
      simpa [Nat.add_comm] using this
    · intro x hx hxr
      refine List.mem_filter.mpr ⟨hx, ?_⟩
      cases hpx : matchesFilter filt x
      · rfl
      · exact absurd (hmem_one x hx hpx) hxr
    · intro u hu
      subst hu
      have hnil : (store.filter (fun x => !matchesFilter (.byUuid u) x)).filter
          (fun x => x.uuid = some u) = [] := by
        refine List.filter_eq_nil_iff.mpr ?_
        intro x hx
        have hneg := (List.mem_filter.mp hx).2
        simp only [matchesFilter, Bool.not_eq_true'] at hneg
        simp [hneg]
      simp [getDeviceByUuid, queryOne, hnil]
    · intro i hi
      subst hi
      have hnil : (store.filter (fun x => !matchesFilter (.byId i) x)).filter
          (fun x => x.id = i) = [] := by
        refine List.filter_eq_nil_iff.mpr ?_
        intro x hx
        have hneg := (List.mem_filter.mp hx).2
        simp only [matchesFilter, Bool.not_eq_true'] at hneg
        simp [hneg]
      simp [getDeviceById, queryOne, hnil]

/-- Witness for C5: destroying an existing device by its uuid removes
exactly it, and the subsequent lookup fails; destroying a missing
identifier fails with `DeviceNotFound`. -/
theorem destroy_device_semantics_witness :
    addIdentityFilter "bd9431c1-8d69-4ad3-803a-8d4a6b89fd36" =
      .ok (.byUuid "bd9431c1-8d69-4ad3-803a-8d4a6b89fd36") ∧
    ([⟨1, none, none, some "bd9431c1-8d69-4ad3-803a-8d4a6b89fd36",
        some "sensor1", none⟩,
      ⟨2, none, none, some "other", some "sensor2", none⟩] :
        List Row).filter
        (fun x => matchesFilter
          (.byUuid "bd9431c1-8d69-4ad3-803a-8d4a6b89fd36") x) =
      [⟨1, none, none, some "bd9431c1-8d69-4ad3-803a-8d4a6b89fd36",
        some "sensor1", none⟩] ∧
    destroyDevice
        [⟨1, none, none, some "bd9431c1-8d69-4ad3-803a-8d4a6b89fd36",
          some "sensor1", none⟩,
         ⟨2, none, none, some "other", some "sensor2", none⟩]
        "bd9431c1-8d69-4ad3-803a-8d4a6b89fd36" =
      .ok [⟨2, none, none, some "other", some "sensor2", none⟩] ∧
    getDeviceByUuid [⟨2, none, none, some "other", some "sensor2", none⟩]
        "bd9431c1-8d69-4ad3-803a-8d4a6b89fd36" =
      .error (.deviceNotFound "bd9431c1-8d69-4ad3-803a-8d4a6b89fd36") ∧
    destroyDevice
        [⟨2, none, none, some "other", some "sensor2", none⟩]
        "bd9431c1-8d69-4ad3-803a-8d4a6b89fd36" =
      .error (.deviceNotFound "bd9431c1-8d69-4ad3-803a-8d4a6b89fd36") := by
  have h := (destroy_device_semantics
    [⟨1, none, none, some "bd9431c1-8d69-4ad3-803a-8d4a6b89fd36",
      some "sensor1", none⟩,
     ⟨2, none, none, some "other", some "sensor2", none⟩]
    "bd9431c1-8d69-4ad3-803a-8d4a6b89fd36"
    (.byUuid "bd9431c1-8d69-4ad3-803a-8d4a6b89fd36") (by decide)).2
    ⟨1, none, none, some "bd9431c1-8d69-4ad3-803a-8d4a6b89fd36",
      some "sensor1", none⟩ (by decide)
  have h2 := (destroy_device_semantics
    [⟨2, none, none, some "other", some "sensor2", none⟩]
    "bd9431c1-8d69-4ad3-803a-8d4a6b89fd36"
    (.byUuid "bd9431c1-8d69-4ad3-803a-8d4a6b89fd36") (by decide)).1
    (by decide)
  refine ⟨by decide, by decide, ?_, ?_, h2⟩
  · have := h.1
    rw [this]
    decide
  · have := h.2.2.2.1 "bd9431c1-8d69-4ad3-803a-8d4a6b89fd36" rfl
    rw [show ([⟨1, none, none,
        some "bd9431c1-8d69-4ad3-803a-8d4a6b89fd36", some "sensor1", none⟩,
      ⟨2, none, none, some "other", some "sensor2", none⟩] :
        List Row).filter
        (fun x => !matchesFilter
          (.byUuid "bd9431c1-8d69-4ad3-803a-8d4a6b89fd36") x) =
      [⟨2, none, none, some "other", some "sensor2", none⟩] from by decide]
      at this
    exact this

theorem colSet_uuid_of_ne {kv : ObjField × FieldVal} (r : Row)
    (h : kv.fst ≠ .fuuid) : (colSet r kv).uuid = r.uuid := by
  obtain ⟨f, v⟩ := kv
  cases f <;> cases v <;> first | rfl | exact absurd rfl h

theorem applyValues_uuid_of_no_key (r : Row) (vs : Values)
    (h : ∀ kv ∈ vs, kv.fst ≠ ObjField.fuuid) :
    (applyValues r vs).uuid = r.uuid := by
  induction vs generalizing r with
  | nil => rfl
  | cons kv rest ih =>
    have hh : (applyValues (colSet r kv) rest).uuid = (colSet r kv).uuid :=
      ih (colSet r kv) (fun x hx => h x (List.mem_cons_of_mem kv hx))
    calc (applyValues r (kv :: rest)).uuid
        = (applyValues (colSet r kv) rest).uuid := rfl
      _ = (colSet r kv).uuid := hh
      _ = r.uuid := colSet_uuid_of_ne r (h kv (List.mem_cons_self kv rest))

/-- With unique keys, the `uuid` column of the updated row is the string
carried by the mapping's `uuid` entry, or the row's old value when the
mapping has no (string-valued) `uuid` entry. -/
theorem applyValues_uuid (r : Row) (vs : Values)
    (hnd : (vs.map Prod.fst).Nodup) :
    (applyValues r vs).uuid =
      match getKey vs .fuuid with
      | some (.fStr s) => s
      | _ => r.uuid := by
  induction vs generalizing r with
  | nil => rfl
  | cons kv rest ih =>
    obtain ⟨f, v⟩ := kv
    simp only [List.map_cons, List.nodup_cons] at hnd
    obtain ⟨hnot, hrest⟩ := hnd
    by_cases hf : f = ObjField.fuuid
    · subst hf
      have hnokey : ∀ kv ∈ rest, kv.fst ≠ ObjField.fuuid := by
        intro x hx hxk
        exact hnot (hxk ▸ List.mem_map_of_mem Prod.fst hx)
      have hpres : (applyValues (colSet r (ObjField.fuuid, v)) rest).uuid =
          (colSet r (ObjField.fuuid, v)).uuid :=
        applyValues_uuid_of_no_key _ rest hnokey
      cases v with
      | fStr s =>
        simpa [applyValues, getKey, List.lookup, colSet] using hpres
      | fInt i =>
        simpa [applyValues, getKey, List.lookup, colSet] using hpres
    · have hbeq : (ObjField.fuuid == f) = false :=
        beq_eq_false_iff_ne.mpr (fun hh => hf hh.symm)
      have hlook : getKey ((f, v) :: rest) ObjField.fuuid =
          getKey rest ObjField.fuuid := by
        simp only [getKey, List.lookup, hbeq]
      rw [hlook]
      calc (applyValues r ((f, v) :: rest)).uuid
          = (applyValues (colSet r (f, v)) rest).uuid := rfl
        _ = _ := by
            rw [ih (colSet r (f, v)) hrest,
              colSet_uuid_of_ne r (by simpa using hf)]

/-- C3: `create_device` assigns the freshly generated uuid whenever the
values mapping lacks a (truthy) `uuid`; and when the explicit uuid
collides with a stored device's uuid, the create fails with
`DeviceAlreadyExists` carrying that uuid, the colliding insert being
rolled back (no successor store), so the stored device remains. -/
theorem create_device_semantics (store : List Row) (values : Values)
    (g : String) (newId : Int) :
    (pyFalsy (getKey values .fuuid) = true →
      (∀ r ∈ store, r.uuid ≠ some g) →
      createDevice store values g newId =
        .ok (store ++ [applyValues (defaultRow newId)
              (setKey values .fuuid (.fStr (some g)))],
          applyValues (defaultRow newId)
            (setKey values .fuuid (.fStr (some g)))) ∧
      (applyValues (defaultRow newId)
        (setKey values .fuuid (.fStr (some g)))).uuid = some g) ∧
    (∀ u, u ≠ "" →
      getKey values .fuuid = some (.fStr (some u)) →
      (values.map Prod.fst).Nodup →
      ∀ r ∈ store, r.uuid = some u →
        createDevice store values g newId =
          .error (.deviceAlreadyExists u)) := by
  constructor
  · intro hfal hfresh
    have huuid : (applyValues (defaultRow newId)
        (setKey values .fuuid (.fStr (some g)))).uuid = some g := by
      have hnokey : ∀ kv ∈ values.filter
          (fun kv => kv.fst ≠ ObjField.fuuid), kv.fst ≠ ObjField.fuuid := by
        intro kv hkv
        have := (List.mem_filter.mp hkv).2
        simpa using this
      calc (applyValues (defaultRow newId)
            (setKey values .fuuid (.fStr (some g)))).uuid
          = (applyValues
              (colSet (defaultRow newId) (.fuuid, .fStr (some g)))
              (values.filter (fun kv => kv.fst ≠ ObjField.fuuid))).uuid := rfl
        _ = (colSet (defaultRow newId) (.fuuid, .fStr (some g))).uuid :=
            applyValues_uuid_of_no_key _ _ hnokey
        _ = some g := rfl
    have hnodup : store.any (fun r => r.uuid = some g) = false :=
      List.any_eq_false.mpr (fun x hx => by simp [hfresh x hx])
    refine ⟨?_, huuid⟩
    simp [createDevice, hfal, huuid, hnodup]
  · intro u hu hkey hnd r hr hru
    have hfal : pyFalsy (getKey values .fuuid) = false := by
      rw [hkey]
      simpa [pyFalsy] using hu
    have huuid : (applyValues (defaultRow newId) values).uuid = some u := by
      rw [applyValues_uuid (defaultRow newId) values hnd, hkey]
    have hfal2 : pyFalsy (some (FieldVal.fStr (some u))) = false := by
      simp [pyFalsy, hu]
    have hex : ∃ x ∈ store, x.uuid = some u := ⟨r, hr, hru⟩
    simp [createDevice, hkey, hfal2, huuid, hex, uuidStringOf]

/-- Witness for C3: the first create (no uuid given) stores the generated
uuid; a second create reusing that uuid explicitly fails with
`DeviceAlreadyExists`, the first row still being in the store. -/
theorem create_device_semantics_witness :
    pyFalsy (getKey [(ObjField.fname, FieldVal.fStr (some "sensor1"))]
      .fuuid) = true ∧
    createDevice [] [(ObjField.fname, FieldVal.fStr (some "sensor1"))]
        "bd9431c1-8d69-4ad3-803a-8d4a6b89fd36" 1 =
      .ok ([⟨1, none, none,
          some "bd9431c1-8d69-4ad3-803a-8d4a6b89fd36", some "sensor1",
          none⟩],
        ⟨1, none, none, some "bd9431c1-8d69-4ad3-803a-8d4a6b89fd36",
          some "sensor1", none⟩) ∧
    createDevice
        [⟨1, none, none, some "bd9431c1-8d69-4ad3-803a-8d4a6b89fd36",
          some "sensor1", none⟩]
        [(ObjField.fuuid,
          FieldVal.fStr (some "bd9431c1-8d69-4ad3-803a-8d4a6b89fd36"))]
        "unused-generated" 2 =
      .error (.deviceAlreadyExists
        "bd9431c1-8d69-4ad3-803a-8d4a6b89fd36") ∧
    (⟨1, none, none, some "bd9431c1-8d69-4ad3-803a-8d4a6b89fd36",
        some "sensor1", none⟩ : Row) ∈
      [(⟨1, none, none, some "bd9431c1-8d69-4ad3-803a-8d4a6b89fd36",
        some "sensor1", none⟩ : Row)] := by
  have h1 := ((create_device_semantics []
    [(ObjField.fname, FieldVal.fStr (some "sensor1"))]
    "bd9431c1-8d69-4ad3-803a-8d4a6b89fd36" 1).1 (by decide)
    (by intro r hr; cases hr)).1
  have h2 := (create_device_semantics
    [⟨1, none, none, some "bd9431c1-8d69-4ad3-803a-8d4a6b89fd36",
      some "sensor1", none⟩]
    [(ObjField.fuuid,
      FieldVal.fStr (some "bd9431c1-8d69-4ad3-803a-8d4a6b89fd36"))]
    "unused-generated" 2).2 "bd9431c1-8d69-4ad3-803a-8d4a6b89fd36"
    (by decide) (by decide) (by decide)
    ⟨1, none, none, some "bd9431c1-8d69-4ad3-803a-8d4a6b89fd36",
      some "sensor1", none⟩ (List.mem_singleton.mpr rfl) (by decide)
  refine ⟨by decide, ?_, h2, List.mem_singleton.mpr rfl⟩
  rw [h1]
  decide

/-- C7: `_from_db_object` iterates over the object's declared fields —
`id`, `uuid`, `name`, `project_id`, `user_id`, `image_id` — copying
`db_device[field]`; but the `device` table has no `image_id` column, so
the copy fails with `AttributeError` on `image_id` for every storage row,
and no freshly loaded object is ever produced.  (The claim — every
declared field copied verbatim and an empty change-set — is what the
surviving per-field copies do, but the conversion as a whole never
completes.) -/
theorem from_db_object_always_fails (db : Row) :
    fromDbObject db = .error (.attributeMissing "image_id") := rfl

theorem objGetChanges_keys (obj : DeviceObj)
    (hset : ∀ f ∈ obj.changed, (getKey obj.vals f).isSome = true) :
    (objGetChanges obj).map Prod.fst = obj.changed := by
  unfold objGetChanges
  generalize hl : obj.changed = l at hset ⊢
  clear hl
  induction l with
  | nil => rfl
  | cons f t ih =>
    have hf := hset f (List.mem_cons_self f t)
    obtain ⟨v, hv⟩ := Option.isSome_iff_exists.mp hf
    simp only [List.filterMap_cons, hv, Option.map_some, List.map_cons]
    exact congrArg (f :: ·)
      (ih (fun x hx => hset x (List.mem_cons_of_mem f hx)))

/-- C6: `Device.save(context)` sends `update_device` exactly the mapping
of the fields changed since load/last save — its keys are precisely the
change-set, so unset or unchanged fields are absent — and a successful
save leaves the object with an empty change-set (a failed save leaves
the change-set untouched, the reset happening after the update call). -/
theorem device_save_persists_changes (obj : DeviceObj) (store : List Row)
    (u : String) (hu : objUuid obj = .ok u)
    (hset : ∀ f ∈ obj.changed, (getKey obj.vals f).isSome = true) :
    (objGetChanges obj).map Prod.fst = obj.changed ∧
    deviceSave obj store =
      (match updateDevice store u (objGetChanges obj) with
       | .ok p => .ok (p.1, objResetChanges obj)
       | .error e => .error e) ∧
    (∀ store2 obj2, deviceSave obj store = .ok (store2, obj2) →
      obj2.changed = []) := by
  have hmain : deviceSave obj store =
      (match updateDevice store u (objGetChanges obj) with
       | .ok p => .ok (p.1, objResetChanges obj)
       | .error e => .error e) := by
    cases h : updateDevice store u (objGetChanges obj) with
    | ok p =>
      obtain ⟨s2, r2⟩ := p
      simp [deviceSave, hu, h, Bind.bind, Except.bind]
    | error e =>
      simp [deviceSave, hu, h, Bind.bind, Except.bind]
  refine ⟨objGetChanges_keys obj hset, hmain, ?_⟩
  intro store2 obj2 hok
  rw [hmain] at hok
  cases h : updateDevice store u (objGetChanges obj) with
  | ok p =>
    rw [h] at hok
    cases hok
    rfl
  | error e =>
    rw [h] at hok
    cases hok

/-- Witness for C6: an object loaded with uuid `aa` whose `name` was then
modified; save sends only the `name` entry and clears the change-set. -/
theorem device_save_persists_changes_witness :
    objUuid ⟨[(ObjField.fuuid, FieldVal.fStr (some "aa")),
              (ObjField.fname, FieldVal.fStr (some "new"))],
             [ObjField.fname]⟩ = .ok "aa" ∧
    (∀ f ∈ (⟨[(ObjField.fuuid, FieldVal.fStr (some "aa")),
              (ObjField.fname, FieldVal.fStr (some "new"))],
             [ObjField.fname]⟩ : DeviceObj).changed,
      (getKey (⟨[(ObjField.fuuid, FieldVal.fStr (some "aa")),
                 (ObjField.fname, FieldVal.fStr (some "new"))],
                [ObjField.fname]⟩ : DeviceObj).vals f).isSome = true) ∧
    (objGetChanges ⟨[(ObjField.fuuid, FieldVal.fStr (some "aa")),
                     (ObjField.fname, FieldVal.fStr (some "new"))],
                    [ObjField.fname]⟩).map Prod.fst = [ObjField.fname] ∧
    (∀ store2 obj2,
      deviceSave ⟨[(ObjField.fuuid, FieldVal.fStr (some "aa")),
                   (ObjField.fname, FieldVal.fStr (some "new"))],
                  [ObjField.fname]⟩ [] = .ok (store2, obj2) →
      obj2.changed = []) :=
  ⟨by decide, by decide,
   (device_save_persists_changes
     ⟨[(ObjField.fuuid, FieldVal.fStr (some "aa")),
       (ObjField.fname, FieldVal.fStr (some "new"))],
      [ObjField.fname]⟩ [] "aa" (by decide) (by decide)).1,
   (device_save_persists_changes
     ⟨[(ObjField.fuuid, FieldVal.fStr (some "aa")),
       (ObjField.fname, FieldVal.fStr (some "new"))],
      [ObjField.fname]⟩ [] "aa" (by decide) (by decide)).2.2⟩

/-- C8: an exception escaping a wrapped controller method with an
`IoTException` code below 500 reaches the client verbatim, message and
status; any exception of code 500 or more — every non-IoT exception
included — reaches the client as the fixed obfuscated text carrying only
the generated correlation id, and that text is independent of the
exception, so nothing else about it is revealed. -/
theorem controller_exception_wrapping (e : Exc) (corrId : String) :
    (excHttpCode e < 500 →
      @wrapWsmeController Unit (.error e) corrId =
        .error ⟨excMessage e, excHttpCode e⟩) ∧
    (500 ≤ excHttpCode e →
      @wrapWsmeController Unit (.error e) corrId =
        .error ⟨obfuscatedMsg corrId, excHttpCode e⟩) ∧
    (∀ m1 m2 : String,
      @wrapWsmeController Unit (.error (.other m1)) corrId =
        @wrapWsmeController Unit (.error (.other m2)) corrId) := by
  refine ⟨?_, ?_, ?_⟩
  · intro h
    simp [wrapWsmeController, Nat.not_le_of_lt h]
  · intro h
    simp [wrapWsmeController, h]
  · intro m1 m2
    simp [wrapWsmeController, excHttpCode]

/-- Witness for C8: a 404 `DeviceNotFound` message reaches the client
verbatim; a 500 internal exception is replaced by the obfuscated text. -/
theorem controller_exception_wrapping_witness :
    excHttpCode (.iot 404 "Device 42 could not be found.") < 500 ∧
    @wrapWsmeController Unit
        (.error (.iot 404 "Device 42 could not be found.")) "cid-1" =
      .error ⟨"Device 42 could not be found.", 404⟩ ∧
    500 ≤ excHttpCode (.other "division by zero") ∧
    @wrapWsmeController Unit (.error (.other "division by zero")) "cid-1" =
      .error ⟨obfuscatedMsg "cid-1", 500⟩ :=
  ⟨by decide,
   (controller_exception_wrapping
     (.iot 404 "Device 42 could not be found.") "cid-1").1 (by decide),
   by decide,
   (controller_exception_wrapping (.other "division by zero") "cid-1").2.1
     (by decide)⟩

/-- C9: the code at the claim's inputs, contradicting the claim and the
code's own raise statements.  `datetime` coercion never succeeds — the
type is missing from `_supported_types` although its converter is
registered and accepts the value — and no error path raises a
client-error: `ClientSideError` is undefined in the module, so a failed
conversion or an unsupported type raises `NameError` instead, which —
being no `IoTException` — reaches the client as the obfuscated 500
response, never as the claim's client-error.  A successful coercion of a
supported type does return the converted value. -/
theorem query_coercion_raises_name_missing :
    (typeConverters "datetime").isSome = true ∧
    parseIsoTime "2015-03-04T13:00:00" = some "2015-03-04T13:00:00" ∧
    getValueAsType "2015-03-04T13:00:00" (some "datetime") none =
      .error .nameErrorClientSideErrorUndefined ∧
    parsePyInt "abc" = none ∧
    getValueAsType "abc" (some "integer") none =
      .error .nameErrorClientSideErrorUndefined ∧
    getValueAsType "17" (some "integer") none = .ok (.pInt 17) ∧
    excHttpCode (.other "NameError: name ClientSideError is not defined") =
      500 ∧
    @wrapWsmeController Unit
        (.error (.other "NameError: name ClientSideError is not defined"))
        "cid-9" =
      .error ⟨obfuscatedMsg "cid-9", 500⟩ := by
  refine ⟨by decide, by decide, by decide, by decide, by decide, by decide,
    by decide, by decide⟩

/-- C1: on a consistent snapshot (distinct primary keys),
`get_device_list` with `limit = N` returns the first `N` records of the
result set ordered by the sort key in the sort direction — hence at most
`N`, strictly ordered — and calling it again with `marker` set to the
last returned item yields exactly the next `N` (or fewer) records of
that order: the two pages concatenate to a prefix of the full ordered
result set (no gap) and share no record (no overlap). -/
theorem get_device_list_pagination (snap : List Row) (sortKey : Option Col)
    (dir : Dir) (N : Nat) (hids : (snap.map Row.id).Nodup) :
    getDeviceList snap none (some N) none sortKey (some dir) =
      .ok ((sortedRows (paginateSortKeys sortKey) dir snap).take N) ∧
    ((sortedRows (paginateSortKeys sortKey) dir snap).take N).length ≤ N ∧
    ((sortedRows (paginateSortKeys sortKey) dir snap).take N).Pairwise
      (fun a b => rowLt (paginateSortKeys sortKey) dir a b = true) ∧
    (∀ m,
      ((sortedRows (paginateSortKeys sortKey) dir snap).take N).getLast? =
        some m →
      getDeviceList snap none (some N) (some m) sortKey (some dir) =
        .ok (((sortedRows (paginateSortKeys sortKey) dir snap).drop N).take
          N) ∧
      (sortedRows (paginateSortKeys sortKey) dir snap).take N ++
          ((sortedRows (paginateSortKeys sortKey) dir snap).drop N).take N =
        (sortedRows (paginateSortKeys sortKey) dir snap).take (N + N) ∧
      List.Disjoint
        ((sortedRows (paginateSortKeys sortKey) dir snap).take N)
        (((sortedRows (paginateSortKeys sortKey) dir snap).drop N).take
          N)) := by
  set ks := paginateSortKeys sortKey with hks
  set full := sortedRows ks dir snap with hfull
  have hlt : full.Pairwise (fun a b => rowLt ks dir a b = true) :=
    sortedRows_pairwise_lt sortKey dir snap hids
  have hirr : ∀ a, rowLt ks dir a a = false := fun a => rowLt_irrefl ks dir a
  have hasym : ∀ a b, rowLt ks dir a b = true → rowLt ks dir b a = false :=
    fun _ _ h => rowLt_asymm h
  have hnodup : full.Nodup :=
    ((sortedRows_perm ks dir snap).nodup_iff).mpr hids.of_map
  refine ⟨rfl, List.length_take_le N full, hlt.sublist (List.take_sublist N full), ?_⟩
  intro m hm
  have hfilter : full.filter (fun r => rowLt ks dir m r) = full.drop N :=
    filter_after_take_getLast hirr hasym hlt hm
  have hpage2 : getDeviceList snap none (some N) (some m) sortKey
      (some dir) = .ok ((full.filter (fun r => rowLt ks dir m r)).take N) :=
    rfl
  have htake : full.take N ++ (full.drop N).take N = full.take (N + N) :=
    (List.take_add full N N).symm
  refine ⟨by rw [hpage2, hfilter], htake, ?_⟩
  have hnd2 : (full.take N ++ (full.drop N).take N).Nodup := by
    rw [htake]
    exact hnodup.sublist (List.take_sublist (N + N) full)
  exact (List.nodup_append.mp hnd2).2.2

/-- Witness for C1: a three-row snapshot listed two at a time by
descending name; the theorem instantiates to concrete pages. -/
theorem get_device_list_pagination_witness :
    (([⟨1, none, none, some "aa", some "alpha", none⟩,
       ⟨2, none, none, some "bb", some "gamma", none⟩,
       ⟨3, none, none, some "cc", some "beta", none⟩] :
        List Row).map Row.id).Nodup ∧
    (getDeviceList
        [⟨1, none, none, some "aa", some "alpha", none⟩,
         ⟨2, none, none, some "bb", some "gamma", none⟩,
         ⟨3, none, none, some "cc", some "beta", none⟩]
        none (some 2) none (some .cname) (some .desc) =
      .ok ((sortedRows (paginateSortKeys (some .cname)) .desc
          [⟨1, none, none, some "aa", some "alpha", none⟩,
           ⟨2, none, none, some "bb", some "gamma", none⟩,
           ⟨3, none, none, some "cc", some "beta", none⟩]).take 2)) ∧
    (∀ m,
      ((sortedRows (paginateSortKeys (some .cname)) .desc
          [⟨1, none, none, some "aa", some "alpha", none⟩,
           ⟨2, none, none, some "bb", some "gamma", none⟩,
           ⟨3, none, none, some "cc", some "beta", none⟩]).take 2).getLast? =
        some m →
      getDeviceList
          [⟨1, none, none, some "aa", some "alpha", none⟩,
           ⟨2, none, none, some "bb", some "gamma", none⟩,
           ⟨3, none, none, some "cc", some "beta", none⟩]
          none (some 2) (some m) (some .cname) (some .desc) =
        .ok (((sortedRows (paginateSortKeys (some .cname)) .desc
            [⟨1, none, none, some "aa", some "alpha", none⟩,
             ⟨2, none, none, some "bb", some "gamma", none⟩,
             ⟨3, none, none, some "cc", some "beta", none⟩]).drop 2).take
          2)) ∧
    (sortedRows (paginateSortKeys (some .cname)) .desc
        [⟨1, none, none, some "aa", some "alpha", none⟩,
         ⟨2, none, none, some "bb", some "gamma", none⟩,
         ⟨3, none, none, some "cc", some "beta", none⟩]).take 2 =
      [⟨2, none, none, some "bb", some "gamma", none⟩,
       ⟨3, none, none, some "cc", some "beta", none⟩] ∧
    getDeviceList
        [⟨1, none, none, some "aa", some "alpha", none⟩,
         ⟨2, none, none, some "bb", some "gamma", none⟩,
         ⟨3, none, none, some "cc", some "beta", none⟩]
        none (some 2) (some ⟨3, none, none, some "cc", some "beta", none⟩)
        (some .cname) (some .desc) =
      .ok [⟨1, none, none, some "aa", some "alpha", none⟩] := by
  have h := get_device_list_pagination
    [⟨1, none, none, some "aa", some "alpha", none⟩,
     ⟨2, none, none, some "bb", some "gamma", none⟩,
     ⟨3, none, none, some "cc", some "beta", none⟩]
    (some .cname) .desc 2 (by decide)
  refine ⟨by decide, h.1, fun m hm => (h.2.2.2 m hm).1, by decide, ?_⟩
  have h2 := (h.2.2.2 ⟨3, none, none, some "cc", some "beta", none⟩
    (by decide)).1
  rw [h2]
  decide

end IotSpec
